import Mathlib

/-!
Verification of the `fusionadorpdf` PDF-merging single-page application.

Shallow embedding of the two source files:
  * `src/services/pdfService.ts` — the `mergePdfs` service;
  * `src/unnamed/part_000` (the React `App` component) — the selection
    store and its event handlers.

Browser `File` objects are modelled by `MFile`: a display name, a declared
MIME type string, and a content that either loads as a document with a list
of pages or fails to load/copy (`broken`, covering corrupt, unreadable and
copy-restricted files).  Pages are opaque tokens (`Nat`); the merged output
buffer is modelled as the list of pages it serializes, so page count and
page order are directly observable.  The asynchronous handlers are modelled
as pure state transformers run to completion (the app is single-threaded);
`Date.now()` is an explicit `now : Nat` argument.
-/

namespace FusionadorPdf

/-- Content of a browser file: either a document the PDF library loads
successfully, carrying its ordered list of pages, or a file on which
`PDFDocument.load` / `copyPages` throws (corrupt, unreadable, or
copy-restricted). -/
inductive PdfContent where
  | valid (pages : List Nat)
  | broken
deriving DecidableEq, Repr

/-- Model of a browser `File`: display name, declared MIME type, content. -/
structure MFile where
  name : String
  type : String
  content : PdfContent
deriving DecidableEq, Repr

/-- The MIME type the code compares against (`'application/pdf'`). -/
def pdfMime : String := "application/pdf"

/-- Error thrown when `files` is empty (`pdfService.ts` line 12). -/
def noFilesMsg : String := "No se proporcionaron archivos para fusionar."

/-- Error thrown when loading or copying a file fails
(`pdfService.ts` line 35); it interpolates the failing file's name. -/
def processErrorMsg (name : String) : String :=
  "Error al procesar " ++ name ++
    ". Podría estar corrupto o protegido por contraseña sin permisos de copia."

/-- Defensive error raised when zero pages were merged (`pdfService.ts` line 40). -/
def noPagesMsg : String := "No se fusionaron páginas con éxito. Por favor, revisa tus archivos PDF."

/-- The pages a file contributes when its document loads. -/
def filePages (f : MFile) : List Nat :=
  match f.content with
  | .valid ps => ps
  | .broken => []

/-- The `for (const file of files)` loop of `mergePdfs`
(`pdfService.ts` lines 17–37): skip non-PDF-typed entries, append the
copied pages of each loadable file to the accumulator, abort with the
per-file error on the first load/copy failure. -/
def mergeLoop : List MFile → List Nat → Except String (List Nat)
  | [], acc => .ok acc
  | f :: rest, acc =>
    if f.type = pdfMime then
      match f.content with
      | .valid ps => mergeLoop rest (acc ++ ps)
      | .broken => .error (processErrorMsg f.name)
    else
      mergeLoop rest acc

/-- Embedding of `mergePdfs` (`pdfService.ts` lines 5–45): reject an empty input list,
run the merge loop from an empty accumulator, reject a zero-page result,
otherwise serialize the accumulator (modelled as returning its pages). -/
def mergePdfs (files : List MFile) : Except String (List Nat) :=
  if files.isEmpty then .error noFilesMsg
  else
    match mergeLoop files [] with
    | .error e => .error e
    | .ok pages => if pages.isEmpty then .error noPagesMsg else .ok pages

/-- A store entry (`interface ProcessedFile`, part_000 lines 5–9). -/
structure ProcessedFile where
  id : String
  file : MFile
  name : String
deriving DecidableEq, Repr

/-- The React component's state hooks (part_000 lines 27–31).  The merged
PDF object URL is modelled by the buffer it points to. -/
structure AppState where
  selectedFiles : List ProcessedFile
  mergedPdfUrl : Option (List Nat)
  isMerging : Bool
  error : Option String
  dragOver : Bool
deriving DecidableEq, Repr

/-- The initial state (part_000 lines 27–31). -/
def initialState : AppState :=
  { selectedFiles := [], mergedPdfUrl := none, isMerging := false,
    error := none, dragOver := false }

/-- Aggregate warning for ignored non-PDF files (part_000 lines 46, 79). -/
def notPdfWarning : String := "Algunos archivos no eran PDF y fueron ignorados."

/-- Validation message when fewer than two files are selected
(part_000 line 114). -/
def minTwoMsg : String := "Por favor, selecciona al menos dos archivos PDF para fusionar."

/-- Wrap a raw file as a store entry
(part_000 lines 39–43: `id` is name plus `Date.now()`). -/
def mkProcessed (now : Nat) (f : MFile) : ProcessedFile :=
  { id := f.name ++ "-" ++ toString now, file := f, name := f.name }

/-- The functional `setSelectedFiles` update shared by `handleFileChange`
(lines 49–57) and `handleDrop` (lines 82–90): start from `prevFiles` and
push each new entry whose name `prevFiles.find` does not already contain.
The membership test is against `prevFiles`, not the array being built. -/
def addDedup (prevFiles newFiles : List ProcessedFile) : List ProcessedFile :=
  prevFiles ++ newFiles.filter
    (fun nf => (prevFiles.find? (fun pf => pf.name == nf.name)).isNone)

/-- The batch entries accepted by the MIME filter, wrapped as store entries
(part_000 lines 37–43). -/
def acceptedEntries (now : Nat) (files : List MFile) : List ProcessedFile :=
  (files.filter (fun f => f.type == pdfMime)).map (mkProcessed now)

/-- Embedding of `handleFileChange` (part_000 lines 33–61) run to completion on a
non-null batch: clear the error, filter the batch to PDF-typed files, set
the aggregate warning when any entry was dropped, merge the accepted
entries into the store with name-based dedup.  `mergedPdfUrl`, `isMerging`
and `dragOver` are not touched. -/
def handleFileChange (s : AppState) (files : List MFile) (now : Nat) : AppState :=
  let newFiles := acceptedEntries now files
  { s with
    error := if newFiles.length ≠ files.length then some notPdfWarning else none,
    selectedFiles := addDedup s.selectedFiles newFiles }

/-- Embedding of `handleDrop` (part_000 lines 63–92): same ingestion path as
`handleFileChange`, after resetting the drag-over highlight. -/
def handleDrop (s : AppState) (files : List MFile) (now : Nat) : AppState :=
  handleFileChange { s with dragOver := false } files now

/-- Embedding of `handleRemoveFile` (part_000 lines 107–110): drop the entry with the
given id and, when a merged URL exists, clear it. -/
def handleRemoveFile (s : AppState) (fileId : String) : AppState :=
  { s with
    selectedFiles := s.selectedFiles.filter (fun f => f.id ≠ fileId),
    mergedPdfUrl := if s.mergedPdfUrl.isSome then none else s.mergedPdfUrl }

/-- Result of running `handleMergePdfs` to completion: the final component
state plus whether the external `mergePdfs` service was invoked. -/
structure MergeOutcome where
  state : AppState
  serviceInvoked : Bool
deriving DecidableEq, Repr

/-- Embedding of `handleMergePdfs` (part_000 lines 112–133) run to completion: with
fewer than two selected files, set the validation message and return
without calling the service; otherwise clear error and URL, call
`mergePdfs` on the selected files, store the buffer on success or the
thrown message on failure, and reset `isMerging` in the `finally`. -/
def handleMergePdfs (s : AppState) : MergeOutcome :=
  if s.selectedFiles.length < 2 then
    { state := { s with error := some minTwoMsg }, serviceInvoked := false }
  else
    let s1 : AppState :=
      { s with isMerging := true, error := none, mergedPdfUrl := none }
    match mergePdfs (s1.selectedFiles.map (fun pf => pf.file)) with
    | .ok bytes =>
      { state := { s1 with mergedPdfUrl := some bytes, isMerging := false },
        serviceInvoked := true }
    | .error msg =>
      { state := { s1 with error := some msg, isMerging := false },
        serviceInvoked := true }

/-- The anchor element the download handler clicks: filename and content. -/
structure DownloadAction where
  filename : String
  content : List Nat
deriving DecidableEq, Repr

/-- Download filename (part_000 line 139), interpolating `Date.now()`
at the moment the download button is clicked. -/
def downloadFilename (now : Nat) : String :=
  "documento_fusionado_" ++ toString now ++ ".pdf"

/-- Embedding of `handleDownloadMergedPdf` (part_000 lines 135–145): when a merged URL
exists, offer its buffer under the timestamped filename; otherwise do
nothing. -/
def handleDownloadMergedPdf (s : AppState) (now : Nat) : Option DownloadAction :=
  match s.mergedPdfUrl with
  | some bytes => some { filename := downloadFilename now, content := bytes }
  | none => none

/-- Embedding of `handleClearAll` (part_000 lines 147–152). -/
def handleClearAll (s : AppState) : AppState :=
  { s with selectedFiles := [], mergedPdfUrl := none,
           error := none, isMerging := false }

/-! ### Concrete fixtures used by counterexamples and witnesses -/

/-- A two-page valid PDF named `a.pdf`. -/
def fileA : MFile := { name := "a.pdf", type := pdfMime, content := .valid [1, 2] }

/-- A three-page valid PDF named `b.pdf`. -/
def fileB : MFile := { name := "b.pdf", type := pdfMime, content := .valid [3, 4, 5] }

/-- A one-page valid PDF named `c.pdf`. -/
def fileC : MFile := { name := "c.pdf", type := pdfMime, content := .valid [6] }

/-- A PDF-typed file on which load/copy fails. -/
def badFile : MFile := { name := "bad.pdf", type := pdfMime, content := .broken }

/-- A file whose declared MIME type is not PDF. -/
def textFile : MFile := { name := "notes.txt", type := "text/plain", content := .broken }

/-- A second file also named `a.pdf` (different pages). -/
def dupA : MFile := { name := "a.pdf", type := pdfMime, content := .valid [9] }

/-- State after adding just `a.pdf`. -/
def stA : AppState := handleFileChange initialState [fileA] 1

/-- State after adding `a.pdf` then `b.pdf` in two batches. -/
def stAB : AppState := handleFileChange stA [fileB] 2

/-- State after a successful merge of `a.pdf` and `b.pdf`. -/
def stMerged : AppState := (handleMergePdfs stAB).state

/-! ### Helper lemmas about the merge loop -/

/-- When every file in the list is PDF-typed and loadable, the merge loop
succeeds and appends every file's pages to the accumulator in input order. -/
theorem mergeLoop_all_valid (files : List MFile) :
    ∀ acc, (∀ f ∈ files, f.type = pdfMime ∧ f.content ≠ PdfContent.broken) →
      mergeLoop files acc = .ok (acc ++ (files.map filePages).flatten) := by
  induction files with
  | nil => intro acc _; simp [mergeLoop]
  | cons f rest ih =>
    intro acc h
    obtain ⟨ht, hnb⟩ := h f (List.mem_cons_self ..)
    cases hc : f.content with
    | broken => exact absurd hc hnb
    | valid ps =>
      have hrec := ih (acc ++ ps) (fun g hg => h g (List.mem_cons_of_mem _ hg))
      simp [mergeLoop, ht, hc, hrec, filePages, List.append_assoc]

/-- If some PDF-typed file in the list is broken, the merge loop aborts with
the per-file error of (the first) such file, whatever the accumulator. -/
theorem mergeLoop_broken (files : List MFile) :
    ∀ acc, (∃ f ∈ files, f.type = pdfMime ∧ f.content = PdfContent.broken) →
      ∃ g ∈ files, g.type = pdfMime ∧ g.content = PdfContent.broken ∧
        mergeLoop files acc = .error (processErrorMsg g.name) := by
  induction files with
  | nil => intro acc h; simp at h
  | cons f rest ih =>
    intro acc h
    by_cases ht : f.type = pdfMime
    · cases hc : f.content with
      | broken =>
        exact ⟨f, List.mem_cons_self .., ht, hc, by simp [mergeLoop, ht, hc]⟩
      | valid ps =>
        have h' : ∃ g ∈ rest, g.type = pdfMime ∧ g.content = PdfContent.broken := by
          obtain ⟨g, hg, hgt, hgc⟩ := h
          rcases List.mem_cons.mp hg with rfl | hg'
          · rw [hc] at hgc; cases hgc
          · exact ⟨g, hg', hgt, hgc⟩
        obtain ⟨g, hg, hgt, hgc, heq⟩ := ih (acc ++ ps) h'
        exact ⟨g, List.mem_cons_of_mem _ hg, hgt, hgc,
          by simp [mergeLoop, ht, hc, heq]⟩
    · have h' : ∃ g ∈ rest, g.type = pdfMime ∧ g.content = PdfContent.broken := by
        obtain ⟨g, hg, hgt, hgc⟩ := h
        rcases List.mem_cons.mp hg with rfl | hg'
        · exact absurd hgt ht
        · exact ⟨g, hg', hgt, hgc⟩
      obtain ⟨g, hg, hgt, hgc, heq⟩ := ih acc h'
      exact ⟨g, List.mem_cons_of_mem _ hg, hgt, hgc, by simp [mergeLoop, ht, heq]⟩

/-- The merge loop ignores entries whose declared type is not PDF: its
result coincides with the loop run on the PDF-typed entries only. -/
theorem mergeLoop_filter (files : List MFile) :
    ∀ acc, mergeLoop files acc
      = mergeLoop (files.filter (fun f => f.type == pdfMime)) acc := by
  induction files with
  | nil => intro acc; rfl
  | cons f rest ih =>
    intro acc
    by_cases ht : f.type = pdfMime
    · cases hc : f.content with
      | valid ps => simp [mergeLoop, List.filter_cons, ht, hc, ih]
      | broken => simp [mergeLoop, List.filter_cons, ht, hc]
    · simp [mergeLoop, List.filter_cons, ht, ih]

/-- Every error the merge loop produces is the per-file error of some file
in the list. -/
theorem mergeLoop_error_shape (files : List MFile) :
    ∀ acc e, mergeLoop files acc = .error e →
      ∃ g ∈ files, e = processErrorMsg g.name := by
  induction files with
  | nil => intro acc e h; simp [mergeLoop] at h
  | cons f rest ih =>
    intro acc e h
    by_cases ht : f.type = pdfMime
    · cases hc : f.content with
      | valid ps =>
        simp only [mergeLoop, ht, if_pos, hc] at h
        obtain ⟨g, hg, he⟩ := ih _ _ h
        exact ⟨g, List.mem_cons_of_mem _ hg, he⟩
      | broken =>
        simp [mergeLoop, ht, hc] at h
        exact ⟨f, List.mem_cons_self .., h.symm⟩
    · simp only [mergeLoop, ht, if_neg] at h
      obtain ⟨g, hg, he⟩ := ih _ _ h
      exact ⟨g, List.mem_cons_of_mem _ hg, he⟩

/-- On a nonempty list whose loop run succeeds with a nonempty page list,
`mergePdfs` returns those pages. -/
theorem mergePdfs_eq_of_loop_ok (f : MFile) (rest : List MFile) (pages : List Nat)
    (h : mergeLoop (f :: rest) [] = .ok pages) (hne : pages ≠ []) :
    mergePdfs (f :: rest) = .ok pages := by
  simp [mergePdfs, h, hne]

/-- On a nonempty list whose loop run fails, `mergePdfs` propagates the
loop's error. -/
theorem mergePdfs_eq_of_loop_error (f : MFile) (rest : List MFile) (e : String)
    (h : mergeLoop (f :: rest) [] = .error e) :
    mergePdfs (f :: rest) = .error e := by
  simp [mergePdfs, h]

/-- The per-file processing error is never the empty-input error
(their lengths differ for every file name). -/
theorem processErrorMsg_ne_noFilesMsg (n : String) : processErrorMsg n ≠ noFilesMsg := by
  intro h
  have hlen := congrArg String.length h
  simp only [processErrorMsg, noFilesMsg, String.length_append] at hlen
  have hlt : ("No se proporcionaron archivos para fusionar." : String).length
      < ("Error al procesar " : String).length
        + (". Podría estar corrupto o protegido por contraseña sin permisos de copia." :
            String).length := by decide
  omega

/-- Filtering over a list that contains an element failing the predicate
strictly shrinks it. -/
theorem length_filter_lt_of_mem_not {α : Type} (p : α → Bool) (l : List α) (x : α)
    (hx : x ∈ l) (hpx : p x = false) : (l.filter p).length < l.length := by
  induction l with
  | nil => cases hx
  | cons a l ih =>
    rcases List.mem_cons.mp hx with rfl | hx'
    · rw [List.filter_cons, if_neg (by simp [hpx])]
      exact Nat.lt_succ_of_le (List.length_filter_le p l)
    · rw [List.filter_cons]
      by_cases hpa : p a = true
      · rw [if_pos hpa]
        simpa using Nat.succ_lt_succ (ih hx')
      · rw [if_neg hpa]
        exact Nat.lt_succ_of_lt (ih hx')

/-! ### Claim theorems -/

/-- Claim C1, evaluated at the failing input. After the successful
merge of `a.pdf` and `b.pdf` the app holds the merged buffer; adding a new
file `c.pdf` through the ingestion path leaves that stale Merge Result in
place, and the download action still offers the stale buffer — the add
mutation does *not* invalidate the Merge Result, contrary to the claim
(only `remove` and `clear` do). -/
theorem add_after_merge_keeps_stale_result :
    stMerged.mergedPdfUrl = some [1, 2, 3, 4, 5] ∧
    (handleFileChange stMerged [fileC] 7).mergedPdfUrl = some [1, 2, 3, 4, 5] ∧
    handleDownloadMergedPdf (handleFileChange stMerged [fileC] 7) 9 =
      some { filename := downloadFilename 9, content := [1, 2, 3, 4, 5] } :=
  ⟨rfl, rfl, rfl⟩

/-- Claim C2. For a sequence of at least two PDF-typed, loadable, nonempty
input files, `mergePdfs` returns exactly the concatenation of the inputs'
page lists in input order, so the output page count is the sum of the
inputs' page counts. -/
theorem mergePdfs_concatenates_pages (files : List MFile)
    (hlen : 2 ≤ files.length)
    (hvalid : ∀ f ∈ files, f.type = pdfMime ∧ f.content ≠ PdfContent.broken ∧
      filePages f ≠ []) :
    mergePdfs files = Except.ok ((files.map filePages).flatten) ∧
    ((files.map filePages).flatten).length
      = (files.map (fun f => (filePages f).length)).sum := by
  obtain ⟨f, rest, rfl⟩ : ∃ f rest, files = f :: rest := by
    cases files with
    | nil => simp at hlen
    | cons a l => exact ⟨a, l, rfl⟩
  have hloop := mergeLoop_all_valid (f :: rest) []
    (fun g hg => ⟨(hvalid g hg).1, (hvalid g hg).2.1⟩)
  have hne : ((f :: rest).map filePages).flatten ≠ [] := by
    have hf := (hvalid f (List.mem_cons_self ..)).2.2
    simp only [List.map_cons, List.flatten_cons]
    intro h
    exact hf (List.append_eq_nil.mp h).1
  refine ⟨?_, ?_⟩
  · exact mergePdfs_eq_of_loop_ok f rest _ (by simpa using hloop) hne
  · simp [List.length_flatten, List.map_map, Function.comp_def]

/-- Claim C3. Whenever the input list contains a PDF-typed file that fails to
load or copy, `mergePdfs` aborts with the error naming (the first) such
file, and the app-level merge handler exposes no buffer for download and
stores exactly that message. -/
theorem merge_aborts_on_broken_file (files : List MFile)
    (hb : ∃ f ∈ files, f.type = pdfMime ∧ f.content = PdfContent.broken) :
    ∃ g ∈ files, g.type = pdfMime ∧ g.content = PdfContent.broken ∧
      mergePdfs files = Except.error (processErrorMsg g.name) ∧
      (∀ s : AppState, s.selectedFiles.map (fun pf => pf.file) = files →
        2 ≤ s.selectedFiles.length →
          (handleMergePdfs s).state.mergedPdfUrl = none ∧
          (handleMergePdfs s).state.error = some (processErrorMsg g.name)) := by
  obtain ⟨f, rest, rfl⟩ : ∃ f rest, files = f :: rest := by
    rcases hb with ⟨f, hf, -⟩
    cases files with
    | nil => cases hf
    | cons a l => exact ⟨a, l, rfl⟩
  obtain ⟨g, hg, hgt, hgc, heq⟩ := mergeLoop_broken (f :: rest) [] hb
  have hmp : mergePdfs (f :: rest) = .error (processErrorMsg g.name) :=
    mergePdfs_eq_of_loop_error _ _ _ heq
  refine ⟨g, hg, hgt, hgc, hmp, ?_⟩
  intro s hs hlen
  have h2 : ¬ s.selectedFiles.length < 2 := by omega
  simp [handleMergePdfs, h2, hs, hmp]

/-- Claim C4. With fewer than two selected files, the merge handler never
invokes the external merge service and sets the validation message. -/
theorem merge_guard_blocks_small_selection (s : AppState)
    (h : s.selectedFiles.length < 2) :
    (handleMergePdfs s).serviceInvoked = false ∧
    (handleMergePdfs s).state.error = some minTwoMsg := by
  simp [handleMergePdfs, h]

/-- Witness for claim C4 at a one-file state. -/
theorem merge_guard_blocks_small_selection_witness :
    stA.selectedFiles.length < 2 ∧
    ((handleMergePdfs stA).serviceInvoked = false ∧
      (handleMergePdfs stA).state.error = some minTwoMsg) :=
  ⟨by decide, merge_guard_blocks_small_selection stA (by decide)⟩

/-- Claim C5, counterexample. Two files named `a.pdf` arriving in one batch
are both pushed into the store (the dedup check only consults the
pre-batch store), so the store ends with two entries sharing that display
name — not exactly one. -/
theorem same_batch_duplicate_names_both_kept :
    ((handleFileChange initialState [fileA, dupA] 3).selectedFiles.map
        ProcessedFile.name) = ["a.pdf", "a.pdf"] := rfl

/-- Claim C5, amended. Existing entries always survive an add in place, and
when the batch itself carries no repeated names, name-based dedup against
the pre-batch store preserves the no-two-entries-share-a-name invariant. -/
theorem add_dedups_across_batches (s : AppState) (files : List MFile) (now : Nat)
    (hs : (s.selectedFiles.map ProcessedFile.name).Nodup)
    (hb : (files.map MFile.name).Nodup) :
    s.selectedFiles <+: (handleFileChange s files now).selectedFiles ∧
    ((handleFileChange s files now).selectedFiles.map ProcessedFile.name).Nodup := by
  have hres : (handleFileChange s files now).selectedFiles
      = s.selectedFiles ++ (acceptedEntries now files).filter
          (fun nf => (s.selectedFiles.find? (fun pf => pf.name == nf.name)).isNone) :=
    rfl
  refine ⟨⟨_, hres.symm⟩, ?_⟩
  rw [hres, List.map_append, List.nodup_append]
  refine ⟨hs, ?_, ?_⟩
  · have hsub1 : List.Sublist
        (((acceptedEntries now files).filter
          (fun nf =>
            (s.selectedFiles.find? (fun pf => pf.name == nf.name)).isNone)).map
              ProcessedFile.name)
        ((acceptedEntries now files).map ProcessedFile.name) :=
      (List.filter_sublist _).map ProcessedFile.name
    have hmap : (acceptedEntries now files).map ProcessedFile.name
        = (files.filter (fun f => f.type == pdfMime)).map MFile.name := by
      simp [acceptedEntries, List.map_map, Function.comp, mkProcessed]
    have h1 : ((files.filter (fun f => f.type == pdfMime)).map MFile.name).Nodup :=
      ((List.filter_sublist files).map MFile.name).nodup hb
    exact hsub1.nodup (hmap ▸ h1)
  · intro a ha hb'
    obtain ⟨pf, hpf, rfl⟩ := List.mem_map.mp hb'
    have hkeep := (List.mem_filter.mp hpf).2
    have hnone : s.selectedFiles.find? (fun x => x.name == pf.name) = none := by
      simpa using hkeep
    obtain ⟨x, hx, hxa⟩ := List.mem_map.mp ha
    have hnx := List.find?_eq_none.mp hnone x hx
    simp [hxa] at hnx

/-- Witness for claim C5 as amended: adding a batch `[a.pdf, b.pdf]` to a
store already holding `a.pdf` keeps the old entry and stays
duplicate-free. -/
theorem add_dedups_across_batches_witness :
    ((stA.selectedFiles.map ProcessedFile.name).Nodup ∧
      (([dupA, fileB].map MFile.name).Nodup)) ∧
    (stA.selectedFiles <+: (handleFileChange stA [dupA, fileB] 5).selectedFiles ∧
      ((handleFileChange stA [dupA, fileB] 5).selectedFiles.map
          ProcessedFile.name).Nodup) :=
  ⟨⟨by decide, by decide⟩,
   add_dedups_across_batches stA [dupA, fileB] 5 (by decide) (by decide)⟩

/-- Witness for claim C2: merging `a.pdf` (pages 1,2) with `b.pdf`
(pages 3,4,5) yields the five pages in input order. -/
theorem mergePdfs_concatenates_pages_witness :
    mergePdfs [fileA, fileB] = Except.ok [1, 2, 3, 4, 5] :=
  (mergePdfs_concatenates_pages [fileA, fileB] (by decide)
    (by intro f hf; fin_cases hf <;> exact ⟨rfl, by decide, by decide⟩)).1

/-- Witness for claim C3: merging `a.pdf` with the corrupt `bad.pdf` fails
with the error naming `bad.pdf`. -/
theorem merge_aborts_on_broken_file_witness :
    mergePdfs [fileA, badFile] = Except.error (processErrorMsg "bad.pdf") := by
  obtain ⟨g, hg, -, hgc, heq, -⟩ :=
    merge_aborts_on_broken_file [fileA, badFile] ⟨badFile, by decide, rfl, rfl⟩
  have : g = badFile := by
    rcases List.mem_cons.mp hg with rfl | hg'
    · exact absurd hgc (by decide)
    · simpa using hg'
  subst this
  exact heq

/-- Claim C6. When an add batch contains a non-PDF-typed file, every store
entry after the add is either a pre-existing entry or PDF-typed (the
non-PDF file contributes nothing), and the single aggregate warning is
set. -/
theorem add_ignores_non_pdf (s : AppState) (files : List MFile) (now : Nat)
    (hbad : ∃ f ∈ files, f.type ≠ pdfMime) :
    (∀ pf ∈ (handleFileChange s files now).selectedFiles,
        pf ∈ s.selectedFiles ∨ pf.file.type = pdfMime) ∧
    (handleFileChange s files now).error = some notPdfWarning := by
  have hres : (handleFileChange s files now).selectedFiles
      = s.selectedFiles ++ (acceptedEntries now files).filter
          (fun nf => (s.selectedFiles.find? (fun pf => pf.name == nf.name)).isNone) :=
    rfl
  constructor
  · intro pf hpf
    rw [hres] at hpf
    rcases List.mem_append.mp hpf with h | h
    · exact Or.inl h
    · right
      have h1 : pf ∈ acceptedEntries now files := List.mem_of_mem_filter h
      obtain ⟨f, hf, rfl⟩ := List.mem_map.mp h1
      have hft := (List.mem_filter.mp hf).2
      simpa [mkProcessed] using hft
  · obtain ⟨x, hx, hxt⟩ := hbad
    have hlt : (files.filter (fun f => f.type == pdfMime)).length < files.length :=
      length_filter_lt_of_mem_not _ files x hx (by simpa using hxt)
    have hcond : (acceptedEntries now files).length ≠ files.length := by
      simpa [acceptedEntries] using Nat.ne_of_lt hlt
    simp only [handleFileChange, if_pos hcond]

/-- Witness for claim C6: adding `[a.pdf, notes.txt]` to the empty store. -/
theorem add_ignores_non_pdf_witness :
    (handleFileChange initialState [fileA, textFile] 1).error = some notPdfWarning :=
  (add_ignores_non_pdf initialState [fileA, textFile] 1
    ⟨textFile, by decide, by decide⟩).2

/-- Claim C7. Clearing resets every flag: empty store, no Merge Result, no
error message, merge-in-progress false. -/
theorem clearAll_resets_state (s : AppState) :
    (handleClearAll s).selectedFiles = [] ∧
    (handleClearAll s).mergedPdfUrl = none ∧
    (handleClearAll s).error = none ∧
    (handleClearAll s).isMerging = false :=
  ⟨rfl, rfl, rfl, rfl⟩

/-- Claim C8, counterexample. After the successful merge of `a.pdf` and
`b.pdf`, clicking download at time 9 offers the buffer under
`documento_fusionado_9.pdf`, which is not the claimed
`merged_document_9.pdf`. -/
theorem download_filename_not_merged_document :
    handleDownloadMergedPdf stMerged 9
      = some { filename := "documento_fusionado_9.pdf", content := [1, 2, 3, 4, 5] } ∧
    "documento_fusionado_9.pdf" ≠ "merged_document_9.pdf" :=
  ⟨rfl, by decide⟩

/-- Claim C8, amended. Whenever a Merge Result exists, the download action
offers its buffer under `documento_fusionado_<t>.pdf`, where `<t>` is the
epoch-milliseconds clock value read when the download button is clicked. -/
theorem download_filename_uses_click_time (s : AppState) (buf : List Nat) (t : Nat)
    (h : s.mergedPdfUrl = some buf) :
    handleDownloadMergedPdf s t
      = some { filename := "documento_fusionado_" ++ toString t ++ ".pdf",
               content := buf } := by
  simp [handleDownloadMergedPdf, h, downloadFilename]

/-- Witness for claim C8 as amended, at the post-merge state and time 9. -/
theorem download_filename_uses_click_time_witness :
    handleDownloadMergedPdf stMerged 9
      = some { filename := "documento_fusionado_" ++ toString 9 ++ ".pdf",
               content := [1, 2, 3, 4, 5] } :=
  download_filename_uses_click_time stMerged [1, 2, 3, 4, 5] 9 rfl

/-- Claim C9. Inside `mergePdfs` the loop's result is unchanged when non-PDF
typed entries are removed from the input (they are skipped silently and
contribute no pages); a nonempty list of only non-PDF-typed entries fails
with the generic no-pages-merged error, not one naming a file. -/
theorem mergePdfs_skips_wrong_type (files : List MFile) (hne : files ≠ []) :
    mergeLoop files [] = mergeLoop (files.filter (fun f => f.type == pdfMime)) [] ∧
    ((∀ f ∈ files, f.type ≠ pdfMime) → mergePdfs files = Except.error noPagesMsg) := by
  refine ⟨mergeLoop_filter files [], ?_⟩
  intro hall
  obtain ⟨f, rest, rfl⟩ : ∃ f rest, files = f :: rest := by
    cases files with
    | nil => simp at hne
    | cons a l => exact ⟨a, l, rfl⟩
  have hfilter : (f :: rest).filter (fun f => f.type == pdfMime) = [] := by
    rw [List.filter_eq_nil_iff]
    intro a ha
    simpa using hall a ha
  have hloop : mergeLoop (f :: rest) [] = .ok [] := by
    rw [mergeLoop_filter (f :: rest) [], hfilter]
    rfl
  simp [mergePdfs, hloop]

/-- Witness for claim C9: a single text file merges to the generic error. -/
theorem mergePdfs_skips_wrong_type_witness :
    mergePdfs [textFile] = Except.error noPagesMsg :=
  (mergePdfs_skips_wrong_type [textFile] (by decide)).2 (by decide)

/-- Claim C10. `mergePdfs` raises the no-files-provided error exactly on the
empty list, and a singleton list holding one loadable, nonempty PDF merges
successfully to that file's pages — the two-file minimum lives only in the
caller. -/
theorem mergePdfs_noFiles_iff_empty (files : List MFile) :
    (mergePdfs files = Except.error noFilesMsg ↔ files = []) ∧
    (∀ f ps, files = [f] → f.type = pdfMime → f.content = PdfContent.valid ps →
      ps ≠ [] → mergePdfs files = Except.ok ps) := by
  constructor
  · constructor
    · intro h
      by_contra hnil
      obtain ⟨f, rest, rfl⟩ : ∃ f rest, files = f :: rest := by
        cases files with
        | nil => exact absurd rfl hnil
        | cons a l => exact ⟨a, l, rfl⟩
      cases hloop : mergeLoop (f :: rest) [] with
      | error e =>
        rw [mergePdfs_eq_of_loop_error f rest e hloop] at h
        injection h with h'
        obtain ⟨g, -, rfl⟩ := mergeLoop_error_shape (f :: rest) [] e hloop
        exact processErrorMsg_ne_noFilesMsg g.name h'
      | ok pages =>
        by_cases hp : pages = []
        · subst hp
          have hmp : mergePdfs (f :: rest) = .error noPagesMsg := by
            simp [mergePdfs, hloop]
          rw [hmp] at h
          injection h with h'
          exact (by decide : noPagesMsg ≠ noFilesMsg) h'
        · rw [mergePdfs_eq_of_loop_ok f rest pages hloop hp] at h
          cases h
    · rintro rfl
      rfl
  · rintro f ps rfl ht hc hp
    have hloop : mergeLoop [f] [] = .ok ps := by
      simp [mergeLoop, ht, hc]
    exact mergePdfs_eq_of_loop_ok f [] ps hloop hp

/-- Witness for claim C10: the empty list raises the no-files error, and the
single file `a.pdf` merges alone to its own pages. -/
theorem mergePdfs_noFiles_iff_empty_witness :
    mergePdfs [] = Except.error noFilesMsg ∧
    mergePdfs [fileA] = Except.ok [1, 2] :=
  ⟨(mergePdfs_noFiles_iff_empty []).1.mpr rfl,
   (mergePdfs_noFiles_iff_empty [fileA]).2 fileA [1, 2] rfl rfl rfl (by decide)⟩

end FusionadorPdf
